import Mathlib

/-!
Shallow embedding of the Martian-robots simulator from `src/rust/src/main.rs`.

The grid is a bounded rectangle with lower corner (0,0) and upper corner
(x_max, y_max); robots carry a coordinate pair and a compass bearing and
execute scripts of F/L/R instructions.  A robot stepping off the grid is
lost and leaves a "scent" on its last in-bounds cell; scents suppress later
off-grid moves from the same cell.  The driver parses a line-oriented text
input and threads the mutable scent set through the robots in input order.

Machine integers (`i32`) are modelled as `Int` with the parse-time range
check of `str::parse::<i32>`; none of the movement arithmetic in the claims
approaches the `i32` boundaries.  Rust's `HashSet<(i32, i32)>` is modelled
as a `List (Int × Int)` with membership as the set-membership operation.
Fallible operations (`TryFrom`, the driver) return `Except String`.
-/

namespace MartianRobots

/-- Compass headings, as in `enum Bearing`. -/
inductive Bearing where
  | N
  | E
  | S
  | W
deriving DecidableEq, Repr

/-- Turn directions, as in `enum Rotation`. -/
inductive Rotation where
  | L
  | R
deriving DecidableEq, Repr

/-- Instructions, as in `enum Instruction`: forward or turn. -/
inductive Instruction where
  | F
  | Turn (r : Rotation)
deriving DecidableEq, Repr

/-- A robot: coordinates plus bearing, as in `struct Robot`. -/
structure Robot where
  x : Int
  y : Int
  bearing : Bearing
deriving DecidableEq, Repr

/-- The grid: upper bounds plus the scent set, as in `struct Grid`.
The `HashSet<(i32, i32)>` of scents is modelled as a list of pairs with
membership semantics. -/
structure Grid where
  x_max : Int
  y_max : Int
  scents : List (Int × Int)
deriving DecidableEq, Repr

/-- `Robot::move_unchecked`: move `steps` cells along the current bearing,
without any bounds check. -/
def Robot.move_unchecked (r : Robot) (steps : Int) : Robot :=
  match r.bearing with
  | .N => { r with y := r.y + steps }
  | .E => { r with x := r.x + steps }
  | .S => { r with y := r.y - steps }
  | .W => { r with x := r.x - steps }

/-- `Bearing::rotate`: the 4×2 rotation table. -/
def Bearing.rotate (b : Bearing) (rot : Rotation) : Bearing :=
  match b, rot with
  | .N, .L => .W
  | .E, .L => .N
  | .S, .L => .E
  | .W, .L => .S
  | .W, .R => .N
  | .N, .R => .E
  | .E, .R => .S
  | .S, .R => .W

/-- `is_out_of_bounds(grid, robot)`: true iff the robot's coordinates lie
outside the rectangle [0, x_max] × [0, y_max]. -/
def is_out_of_bounds (grid : Grid) (robot : Robot) : Bool :=
  decide (0 > robot.x ∨ robot.x > grid.x_max ∨ 0 > robot.y ∨ robot.y > grid.y_max)

/-- `has_scent(grid, robot)`: membership of the robot's cell in the scent set. -/
def has_scent (grid : Grid) (robot : Robot) : Bool :=
  grid.scents.contains (robot.x, robot.y)

/-- `apply_scent(grid, robot)`: insert the robot's cell into the scent set. -/
def apply_scent (grid : Grid) (robot : Robot) : Grid :=
  { grid with scents := (robot.x, robot.y) :: grid.scents }

/-- `go_forwards(grid, robot)`: one forward step; suppressed when the target
cell is off-grid and the current cell carries a scent. -/
def go_forwards (grid : Grid) (robot : Robot) : Robot :=
  let new_position := robot.move_unchecked 1
  if is_out_of_bounds grid new_position && has_scent grid robot then
    robot
  else
    new_position

/-- `get_next_position(grid, robot, instruction)`: one instruction step;
an already out-of-bounds (lost) robot skips every instruction. -/
def get_next_position (grid : Grid) (robot : Robot) (instruction : Instruction) : Robot :=
  if is_out_of_bounds grid robot then
    robot
  else
    match instruction with
    | .Turn t => { robot with bearing := robot.bearing.rotate t }
    | .F => go_forwards grid robot

/-- `get_end_position(grid, robot, instructions)`: left fold of
`get_next_position` over the script. -/
def get_end_position (grid : Grid) (robot : Robot) : List Instruction → Robot
  | [] => robot
  | instruction :: rest => get_end_position grid (get_next_position grid robot instruction) rest

/-- Splitting a character list on the single separator `' '`, with the
semantics of Rust's `str::split(' ')`: consecutive separators produce empty
fields and the empty input produces one empty field. -/
def split_on_space : List Char → List (List Char)
  | [] => [[]]
  | c :: rest =>
    if c = ' ' then
      [] :: split_on_space rest
    else
      match split_on_space rest with
      | [] => [[c]]
      | f :: fs => (c :: f) :: fs

/-- The numeric value of an ASCII decimal digit. -/
def digit_val (c : Char) : Option Nat :=
  if '0' ≤ c ∧ c ≤ '9' then some (c.toNat - '0'.toNat) else none

/-- Accumulating decimal evaluation of a digit string. -/
def parse_nat_aux (acc : Nat) : List Char → Option Nat
  | [] => some acc
  | c :: rest =>
    match digit_val c with
    | none => none
    | some d => parse_nat_aux (acc * 10 + d) rest

/-- A non-empty all-digit character list evaluated as a natural number. -/
def parse_nat_digits : List Char → Option Nat
  | [] => none
  | cs => parse_nat_aux 0 cs

/-- `str::parse::<i32>`: optional sign, then decimal digits, with the `i32`
range check; failures carry the `ParseIntError` display strings. -/
def parse_i32 (cs : List Char) : Except String Int :=
  let value? : Option Int :=
    match cs with
    | '-' :: rest => (parse_nat_digits rest).map fun n => -(n : Int)
    | '+' :: rest => (parse_nat_digits rest).map fun n => (n : Int)
    | _ => (parse_nat_digits cs).map fun n => (n : Int)
  match value? with
  | none => .error "invalid digit found in string"
  | some n =>
    if n < -(2 ^ 31) then .error "number too small to fit in target type"
    else if 2 ^ 31 ≤ n then .error "number too large to fit in target type"
    else .ok n

/-- `TryFrom<&str> for Bearing`: exactly the four one-letter tokens. -/
def Bearing.tryFrom (input : List Char) : Except String Bearing :=
  match input with
  | ['N'] => .ok .N
  | ['E'] => .ok .E
  | ['S'] => .ok .S
  | ['W'] => .ok .W
  | _ => .error "Bearing must be one of N, E, S, or W"

/-- `TryFrom<String> for Grid`: two space-separated integers, a fresh empty
scent set; a third field is rejected. -/
def Grid.tryFrom (size_line : String) : Except String Grid :=
  match split_on_space size_line.toList with
  | [] => .error "missing x coordinate"
  | xs :: rest => do
    let x ← parse_i32 xs
    match rest with
    | [] => .error "missing y coordinate"
    | ys :: rest2 => do
      let y ← parse_i32 ys
      if rest2.isEmpty then
        .ok { x_max := x, y_max := y, scents := [] }
      else
        .error "grid line has too many fields"

/-- `TryFrom<String> for Robot`: two integers and a bearing token; a fourth
field is rejected (with the same message the source copied from `Grid`). -/
def Robot.tryFrom (position_line : String) : Except String Robot :=
  match split_on_space position_line.toList with
  | [] => .error "missing x coordinate"
  | xs :: rest => do
    let x ← parse_i32 xs
    match rest with
    | [] => .error "missing y coordinate"
    | ys :: rest2 => do
      let y ← parse_i32 ys
      match rest2 with
      | [] => .error "missing bearing"
      | bs :: rest3 => do
        let bearing ← Bearing.tryFrom bs
        if rest3.isEmpty then
          .ok { x := x, y := y, bearing := bearing }
        else
          .error "grid line has too many fields"

/-- `TryFrom<char> for Instruction`: F, L and R only. -/
def Instruction.tryFrom (value : Char) : Except String Instruction :=
  match value with
  | 'F' => .ok .F
  | 'L' => .ok (.Turn .L)
  | 'R' => .ok (.Turn .R)
  | _ => .error "instruction must be F, L, or R"

/-- Decoding a whole instruction line, short-circuiting at the first bad
character, as `chars().map(try_into).collect::<Result<Vec<_>>>()` does. -/
def parse_instructions : List Char → Except String (List Instruction)
  | [] => .ok []
  | c :: rest => do
    let i ← Instruction.tryFrom c
    let is ← parse_instructions rest
    .ok (i :: is)

/-- The `Display` derive on `Bearing`: the variant name. -/
def Bearing.show : Bearing → String
  | .N => "N"
  | .E => "E"
  | .S => "S"
  | .W => "W"

/-- The `"{} {} {}"` output format of `drive_robots`. -/
def format_robot (r : Robot) : String :=
  toString r.x ++ " " ++ toString r.y ++ " " ++ r.bearing.show

/-- The body of the closure in `drive_robots`: parse one
(position, instruction-script) pair, run the robot, and on loss back it up
one step, mark the scent and append LOST; returns the updated grid and the
per-robot result. -/
def process_pair (grid : Grid) (position_line instruction_line : String) :
    Grid × Except String String :=
  match Robot.tryFrom position_line with
  | .error e => (grid, .error e)
  | .ok start =>
    match parse_instructions instruction_line.toList with
    | .error e => (grid, .error e)
    | .ok instructions =>
      let endPos := get_end_position grid start instructions
      if is_out_of_bounds grid endPos then
        let last := endPos.move_unchecked (-1)
        (apply_scent grid last, .ok (format_robot last ++ " LOST"))
      else
        (grid, .ok (format_robot endPos))

/-- `Itertools::tuples` on pairs: chunk a list two at a time, discarding a
trailing unpaired element. -/
def tuples {α : Type} : List α → List (α × α)
  | a :: b :: rest => (a, b) :: tuples rest
  | _ => []

/-- The lazy `map` over `tuples` in `drive_robots`, with the captured grid
threaded through the pairs in order. -/
def run_pairs (grid : Grid) : List (String × String) → List (Except String String)
  | [] => []
  | (p, i) :: rest =>
    let out := process_pair grid p i
    out.2 :: run_pairs out.1 rest

/-- `is_interesting`: blank lines are dropped before the driver consumes the
stream (the error-carrying case of the Rust iterator does not arise for a
pure list of lines). -/
def is_interesting (l : String) : Bool :=
  !l.isEmpty

/-- `drive_robots`: filter blanks, build the grid from the first line (empty
input and grid-parse failures are fatal), then emit one result per complete
pair of remaining lines. -/
def drive_robots (lines : List String) : Except String (List (Except String String)) :=
  match lines.filter is_interesting with
  | [] => .error "input must not be empty"
  | grid_line :: rest => do
    let grid ← Grid.tryFrom grid_line
    .ok (run_pairs grid (tuples rest))

/-! Helper lemmas shared by the claim theorems. -/

/-- Moving never changes the bearing. -/
theorem move_unchecked_bearing (r : Robot) (s : Int) :
    (r.move_unchecked s).bearing = r.bearing := by
  cases r with
  | mk x y b => cases b <;> rfl

/-- Backing up one step undoes a forward step along the same bearing. -/
theorem move_unchecked_cancel (r : Robot) :
    (r.move_unchecked 1).move_unchecked (-1) = r := by
  cases r with
  | mk x y b =>
    cases b <;> simp [Robot.move_unchecked]

/-- Bounds checking only looks at the coordinates. -/
theorem is_out_of_bounds_congr (g : Grid) (r1 r2 : Robot)
    (hx : r1.x = r2.x) (hy : r1.y = r2.y) :
    is_out_of_bounds g r1 = is_out_of_bounds g r2 := by
  simp [is_out_of_bounds, hx, hy]

/-- Adding a scent never changes the bounds check. -/
theorem is_out_of_bounds_apply_scent (g : Grid) (r0 r : Robot) :
    is_out_of_bounds (apply_scent g r0) r = is_out_of_bounds g r := rfl

/-- A lost (out-of-bounds) robot skips a single instruction. -/
theorem get_next_position_frozen (g : Grid) (r : Robot) (i : Instruction)
    (h : is_out_of_bounds g r = true) :
    get_next_position g r i = r := by
  simp [get_next_position, h]

/-- A lost (out-of-bounds) robot skips every remaining instruction. -/
theorem get_end_position_frozen (g : Grid) (r : Robot) :
    ∀ insts : List Instruction, is_out_of_bounds g r = true →
      get_end_position g r insts = r
  | [], _ => rfl
  | i :: rest, h => by
    rw [get_end_position, get_next_position_frozen g r i h]
    exact get_end_position_frozen g r rest h

/-- Unfolding `go_forwards` when the suppression guard holds. -/
theorem go_forwards_scented (g : Grid) (r : Robot)
    (h1 : is_out_of_bounds g (r.move_unchecked 1) = true)
    (h2 : has_scent g r = true) :
    go_forwards g r = r := by
  simp [go_forwards, h1, h2]

/-- Unfolding `go_forwards` when the suppression guard fails. -/
theorem go_forwards_free (g : Grid) (r : Robot)
    (h : (is_out_of_bounds g (r.move_unchecked 1) && has_scent g r) = false) :
    go_forwards g r = r.move_unchecked 1 := by
  simp only [go_forwards, h, Bool.false_eq_true, if_false]

/-- Unfolding `get_next_position` on a turn for an in-bounds robot. -/
theorem get_next_position_turn (g : Grid) (r : Robot) (t : Rotation)
    (hin : is_out_of_bounds g r = false) :
    get_next_position g r (.Turn t) = { r with bearing := r.bearing.rotate t } := by
  simp [get_next_position, hin]

/-- Unfolding `get_next_position` on a Forward for an in-bounds robot. -/
theorem get_next_position_forward (g : Grid) (r : Robot)
    (hin : is_out_of_bounds g r = false) :
    get_next_position g r .F = go_forwards g r := by
  simp [get_next_position, hin]

/-- When a single step takes an in-bounds robot out of bounds, the
instruction was a Forward and the step was an unchecked move by one. -/
theorem step_off_grid (g : Grid) (r : Robot) (i : Instruction)
    (hin : is_out_of_bounds g r = false)
    (hout : is_out_of_bounds g (get_next_position g r i) = true) :
    get_next_position g r i = r.move_unchecked 1 := by
  cases i with
  | Turn t =>
    exfalso
    rw [get_next_position_turn g r t hin] at hout
    rw [is_out_of_bounds_congr g ⟨r.x, r.y, r.bearing.rotate t⟩ r rfl rfl, hin] at hout
    exact Bool.false_ne_true hout
  | F =>
    rw [get_next_position_forward g r hin] at hout ⊢
    by_cases hc : (is_out_of_bounds g (r.move_unchecked 1) && has_scent g r) = true
    · rw [go_forwards_scented g r (by exact (Bool.and_eq_true _ _).mp hc |>.1)
        ((Bool.and_eq_true _ _).mp hc |>.2)] at hout
      rw [hout] at hin
      exact absurd hin (by simp)
    · exact go_forwards_free g r (Bool.eq_false_iff.mpr hc)

set_option maxRecDepth 8192

/-! The claim theorems. -/

/-- C1: running the driver on the literal scenario — grid line "5 3", then
robot "1 1 E" with script "RFRFRFRF", robot "3 2 N" with script
"FRRFLLFFRRFLL", robot "0 3 W" with script "LLFFFLFLFL" — produces exactly
the three output lines "1 1 E", "3 3 N LOST", "2 3 S", in that order. -/
theorem C1_example_scenario :
    drive_robots ["5 3", "1 1 E", "RFRFRFRF", "3 2 N", "FRRFLLFFRRFLL", "0 3 W", "LLFFFLFLFL"] =
      .ok [.ok "1 1 E", .ok "3 3 N LOST", .ok "2 3 S"] := by
  rfl

/-- C4: a robot whose pose is off the grid skips every further instruction —
single steps and whole scripts leave its position and bearing unchanged, so
the terminal lost pose equals the pose at the moment of loss. -/
theorem C4_lost_robot_frozen (g : Grid) (r : Robot)
    (hlost : is_out_of_bounds g r = true) :
    (∀ i : Instruction, get_next_position g r i = r) ∧
    (∀ insts : List Instruction, get_end_position g r insts = r) :=
  ⟨fun i => get_next_position_frozen g r i hlost,
   fun insts => get_end_position_frozen g r insts hlost⟩

/-- C4 witness: a robot at (10, 10) on the 5×3 grid is out of bounds and a
concrete script leaves it unchanged. -/
theorem C4_lost_robot_frozen_witness :
    is_out_of_bounds ⟨5, 3, []⟩ ⟨10, 10, .N⟩ = true ∧
    get_end_position ⟨5, 3, []⟩ ⟨10, 10, .N⟩ [.F, .Turn .L, .F] = ⟨10, 10, .N⟩ :=
  ⟨by decide, (C4_lost_robot_frozen ⟨5, 3, []⟩ ⟨10, 10, .N⟩ (by decide)).2 [.F, .Turn .L, .F]⟩

/-- C6: an input all of whose lines are blank (in particular, an input with
no lines at all) makes the driver fail with the fatal empty-input error, so
no grid is built and no result lines are produced. -/
theorem C6_empty_input (lines : List String)
    (h : ∀ l ∈ lines, l.isEmpty = true) :
    drive_robots lines = .error "input must not be empty" := by
  have hfil : lines.filter is_interesting = [] := by
    rw [List.filter_eq_nil_iff]
    intro a ha
    simp [is_interesting, h a ha]
  rw [drive_robots, hfil]

/-- C6 witness: the empty line list (and a list holding one blank line)
produce the empty-input error. -/
theorem C6_empty_input_witness :
    drive_robots [] = .error "input must not be empty" ∧
    drive_robots [""] = .error "input must not be empty" :=
  ⟨C6_empty_input [] (by simp),
   C6_empty_input [""] (by decide)⟩

/-- C7: a script that contains no Forward instruction never changes the
robot's position — only the bearing may change. -/
theorem C7_turns_keep_position (g : Grid) (r : Robot) (insts : List Instruction)
    (h : ∀ i ∈ insts, i ≠ Instruction.F) :
    (get_end_position g r insts).x = r.x ∧ (get_end_position g r insts).y = r.y := by
  induction insts generalizing r with
  | nil => exact ⟨rfl, rfl⟩
  | cons i rest ih =>
    have hi : i ≠ Instruction.F := h i (List.mem_cons_self i rest)
    have hrest : ∀ j ∈ rest, j ≠ Instruction.F := fun j hj => h j (List.mem_cons_of_mem i hj)
    have hstep : (get_next_position g r i).x = r.x ∧ (get_next_position g r i).y = r.y := by
      by_cases hb : is_out_of_bounds g r = true
      · rw [get_next_position_frozen g r i hb]
        exact ⟨rfl, rfl⟩
      · cases i with
        | F => exact absurd rfl hi
        | Turn t =>
          rw [get_next_position_turn g r t (Bool.eq_false_iff.mpr hb)]
          exact ⟨rfl, rfl⟩
    rw [get_end_position]
    have := ih (get_next_position g r i) hrest
    exact ⟨this.1.trans hstep.1, this.2.trans hstep.2⟩

/-- C7 witness: a concrete turn-only script on the 5×3 grid keeps the
robot at (1, 1). -/
theorem C7_turns_keep_position_witness :
    (get_end_position ⟨5, 3, []⟩ ⟨1, 1, .E⟩ [.Turn .L, .Turn .L, .Turn .R]).x = 1 ∧
    (get_end_position ⟨5, 3, []⟩ ⟨1, 1, .E⟩ [.Turn .L, .Turn .L, .Turn .R]).y = 1 :=
  C7_turns_keep_position ⟨5, 3, []⟩ ⟨1, 1, .E⟩ [.Turn .L, .Turn .L, .Turn .R] (by decide)

/-- C9: scent suppression depends only on the cell, not on the heading — two
robots on the same cell see the same scent bit, and a robot standing on a
scented cell whose forward target is off-grid is blocked in place whatever
its bearing. -/
theorem C9_scent_ignores_heading (g : Grid) (r1 r2 : Robot)
    (hx : r1.x = r2.x) (hy : r1.y = r2.y) :
    has_scent g r1 = has_scent g r2 ∧
    (has_scent g r2 = true → is_out_of_bounds g (r2.move_unchecked 1) = true →
      go_forwards g r2 = r2) := by
  constructor
  · simp [has_scent, hx, hy]
  · intro hs hoff
    exact go_forwards_scented g r2 hoff hs

/-- C9 witness: at the corner cell (0, 3) of the 5×3 grid, a scent left by a
west-facing robot also blocks a north-facing robot. -/
theorem C9_scent_ignores_heading_witness :
    has_scent ⟨5, 3, [(0, 3)]⟩ ⟨0, 3, .W⟩ = has_scent ⟨5, 3, [(0, 3)]⟩ ⟨0, 3, .N⟩ ∧
    go_forwards ⟨5, 3, [(0, 3)]⟩ ⟨0, 3, .N⟩ = ⟨0, 3, .N⟩ :=
  ⟨(C9_scent_ignores_heading ⟨5, 3, [(0, 3)]⟩ ⟨0, 3, .W⟩ ⟨0, 3, .N⟩ rfl rfl).1,
   (C9_scent_ignores_heading ⟨5, 3, [(0, 3)]⟩ ⟨0, 3, .W⟩ ⟨0, 3, .N⟩ rfl rfl).2
     (by decide) (by decide)⟩

/-- C2: for an in-bounds robot whose forward target is off-grid — with a
scent on its cell it stays in place and is not lost; without one it is lost,
and at the end of its run the driver's scent insertion at the backed-up pose
marks exactly its last in-bounds cell, so a later robot at that cell with
that heading is blocked rather than lost. -/
theorem C2_scent_protects (g : Grid) (r : Robot)
    (hin : is_out_of_bounds g r = false)
    (hoff : is_out_of_bounds g (r.move_unchecked 1) = true) :
    (has_scent g r = true →
      go_forwards g r = r ∧ is_out_of_bounds g (go_forwards g r) = false) ∧
    (has_scent g r = false →
      go_forwards g r = r.move_unchecked 1 ∧
      is_out_of_bounds g (go_forwards g r) = true ∧
      ∀ insts : List Instruction,
        get_end_position g (go_forwards g r) insts = r.move_unchecked 1 ∧
        (get_end_position g (go_forwards g r) insts).move_unchecked (-1) = r ∧
        has_scent (apply_scent g r) r = true ∧
        go_forwards (apply_scent g r) r = r) := by
  constructor
  · intro hs
    have hgf := go_forwards_scented g r hoff hs
    exact ⟨hgf, by rw [hgf]; exact hin⟩
  · intro hs
    have hgf : go_forwards g r = r.move_unchecked 1 :=
      go_forwards_free g r (by rw [hs, Bool.and_false])
    refine ⟨hgf, by rw [hgf]; exact hoff, ?_⟩
    intro insts
    have hend : get_end_position g (go_forwards g r) insts = r.move_unchecked 1 := by
      rw [hgf]
      exact get_end_position_frozen g _ insts hoff
    refine ⟨hend, by rw [hend]; exact move_unchecked_cancel r, ?_, ?_⟩
    · simp [has_scent, apply_scent]
    · apply go_forwards_scented
      · rw [is_out_of_bounds_apply_scent]
        exact hoff
      · simp [has_scent, apply_scent]

/-- C2 witness: on the 1×1 grid the unscented origin robot is lost, and the
scented grid then blocks the same pose in place. -/
theorem C2_scent_protects_witness :
    has_scent (⟨0, 0, []⟩ : Grid) ⟨0, 0, .N⟩ = false ∧
    go_forwards (apply_scent ⟨0, 0, []⟩ ⟨0, 0, .N⟩) ⟨0, 0, .N⟩ = ⟨0, 0, .N⟩ :=
  ⟨by decide,
   (((C2_scent_protects ⟨0, 0, []⟩ ⟨0, 0, .N⟩ (by decide) (by decide)).2
      (by decide)).2.2 []).2.2.2⟩

/-- Any character outside {F, L, R} is rejected by the instruction decoder
with the invalid-instruction message. -/
theorem tryFrom_bad_char (c : Char)
    (h1 : c ≠ 'F') (h2 : c ≠ 'L') (h3 : c ≠ 'R') :
    Instruction.tryFrom c = .error "instruction must be F, L, or R" := by
  simp [Instruction.tryFrom, h1, h2, h3]

/-- The instruction decoder either succeeds or fails with the
invalid-instruction message. -/
theorem tryFrom_cases (c : Char) :
    (∃ i, Instruction.tryFrom c = .ok i) ∨
      Instruction.tryFrom c = .error "instruction must be F, L, or R" := by
  by_cases h1 : c = 'F'
  · exact Or.inl ⟨.F, by rw [h1]; rfl⟩
  · by_cases h2 : c = 'L'
    · exact Or.inl ⟨.Turn .L, by rw [h2]; rfl⟩
    · by_cases h3 : c = 'R'
      · exact Or.inl ⟨.Turn .R, by rw [h3]; rfl⟩
      · exact Or.inr (tryFrom_bad_char c h1 h2 h3)

/-- A script containing any character outside {F, L, R} fails to decode,
with the invalid-instruction message of its first bad character. -/
theorem parse_instructions_bad :
    ∀ cs : List Char, (∃ c ∈ cs, c ≠ 'F' ∧ c ≠ 'L' ∧ c ≠ 'R') →
      parse_instructions cs = .error "instruction must be F, L, or R" := by
  intro cs
  induction cs with
  | nil =>
    rintro ⟨c, hc, -⟩
    simp at hc
  | cons c rest ih =>
    rintro ⟨d, hd, hd1, hd2, hd3⟩
    rcases List.mem_cons.mp hd with heq | hdrest
    · subst heq
      rw [parse_instructions, tryFrom_bad_char d hd1 hd2 hd3]
      rfl
    · have hrest := ih ⟨d, hdrest, hd1, hd2, hd3⟩
      rw [parse_instructions, hrest]
      rcases tryFrom_cases c with ⟨i, hi⟩ | he
      · rw [hi]
        rfl
      · rw [he]
        rfl

/-- C5: a pair whose instruction-script line contains a character outside
{F, L, R} produces the invalid-instruction error, and the grid (in
particular its scent set) is left untouched — no partial movement or scent
from the invalid script is applied. -/
theorem C5_invalid_instruction (g : Grid) (pl il : String) (r : Robot)
    (hr : Robot.tryFrom pl = .ok r)
    (hbad : ∃ c ∈ il.toList, c ≠ 'F' ∧ c ≠ 'L' ∧ c ≠ 'R') :
    process_pair g pl il = (g, .error "instruction must be F, L, or R") := by
  have hpi : parse_instructions il.data = .error "instruction must be F, L, or R" :=
    parse_instructions_bad il.toList hbad
  simp [process_pair, hr, hpi]

/-- C5 witness: the script "RFX" on robot "1 1 E" errs and leaves the 5×3
grid unchanged. -/
theorem C5_invalid_instruction_witness :
    process_pair ⟨5, 3, []⟩ "1 1 E" "RFX" =
      (⟨5, 3, []⟩, .error "instruction must be F, L, or R") :=
  C5_invalid_instruction ⟨5, 3, []⟩ "1 1 E" "RFX" ⟨1, 1, .E⟩ (by rfl)
    ⟨'X', by decide, by decide, by decide, by decide⟩

/-- C10: a robot parsed at an already out-of-bounds start skips its whole
script, and the driver reports it LOST at the cell one step behind its start
along its initial bearing — a cell distinct from the start, where the scent
is also inserted. -/
theorem C10_start_out_of_bounds (g : Grid) (pl il : String) (r : Robot)
    (insts : List Instruction)
    (hr : Robot.tryFrom pl = .ok r)
    (hi : parse_instructions il.toList = .ok insts)
    (hoob : is_out_of_bounds g r = true) :
    get_end_position g r insts = r ∧
    process_pair g pl il =
      (apply_scent g (r.move_unchecked (-1)),
        .ok (format_robot (r.move_unchecked (-1)) ++ " LOST")) ∧
    ((r.move_unchecked (-1)).x, (r.move_unchecked (-1)).y) ≠ (r.x, r.y) := by
  have hend := get_end_position_frozen g r insts hoob
  have hi' : parse_instructions il.data = .ok insts := hi
  refine ⟨hend, ?_, ?_⟩
  · simp [process_pair, hr, hi', hend, hoob]
  · cases r with
    | mk x y b => cases b <;> simp [Robot.move_unchecked]

/-- C10 witness: the robot "10 10 N" on the 5×3 grid is reported LOST at
(10, 9) — a cell it never occupied and which is itself off the grid — and
the scent lands there. -/
theorem C10_start_out_of_bounds_witness :
    process_pair ⟨5, 3, []⟩ "10 10 N" "F" =
      (apply_scent ⟨5, 3, []⟩ ((⟨10, 10, .N⟩ : Robot).move_unchecked (-1)),
        .ok (format_robot ((⟨10, 10, .N⟩ : Robot).move_unchecked (-1)) ++ " LOST")) ∧
    is_out_of_bounds ⟨5, 3, []⟩ ((⟨10, 10, .N⟩ : Robot).move_unchecked (-1)) = true :=
  ⟨(C10_start_out_of_bounds ⟨5, 3, []⟩ "10 10 N" "F" ⟨10, 10, .N⟩ [.F]
      (by rfl) (by rfl) (by decide)).2.1,
   by decide⟩

/-- A run that starts in bounds and ends out of bounds has a split point:
after some prefix of k instructions the robot is still in bounds, the very
next instruction moves it one unchecked step off the grid, and the rest of
the script leaves it there. -/
theorem lost_split (g : Grid) :
    ∀ (insts : List Instruction) (r : Robot),
      is_out_of_bounds g r = false →
      is_out_of_bounds g (get_end_position g r insts) = true →
      ∃ k, k < insts.length ∧
        is_out_of_bounds g (get_end_position g r (insts.take k)) = false ∧
        get_end_position g r (insts.take (k + 1)) = get_end_position g r insts ∧
        get_end_position g r insts = (get_end_position g r (insts.take k)).move_unchecked 1 := by
  intro insts
  induction insts with
  | nil =>
    intro r hin hout
    simp only [get_end_position] at hout
    rw [hin] at hout
    exact absurd hout (by simp)
  | cons i rest ih =>
    intro r hin hout
    by_cases hmid : is_out_of_bounds g (get_next_position g r i) = true
    · have hstep := step_off_grid g r i hin hmid
      have hfroz : get_end_position g (get_next_position g r i) rest = get_next_position g r i :=
        get_end_position_frozen g _ rest hmid
      refine ⟨0, by simp, ?_, ?_, ?_⟩
      · simpa [get_end_position] using hin
      · show get_end_position g r ((i :: rest).take 1) =
          get_end_position g (get_next_position g r i) rest
        rw [hfroz]
        rfl
      · show get_end_position g (get_next_position g r i) rest =
          (get_end_position g r ((i :: rest).take 0)).move_unchecked 1
        rw [hfroz]
        exact hstep
    · have hmid' : is_out_of_bounds g (get_next_position g r i) = false :=
        Bool.eq_false_iff.mpr hmid
      obtain ⟨k, hk, h1, h2, h3⟩ := ih (get_next_position g r i) hmid' hout
      refine ⟨k + 1, by simpa using Nat.succ_lt_succ hk, ?_, ?_, ?_⟩
      · simpa [List.take_succ_cons, get_end_position] using h1
      · simpa [List.take_succ_cons, get_end_position] using h2
      · simpa [List.take_succ_cons, get_end_position] using h3

/-- C3: a robot that starts inside the grid and ends lost is reported (and
scented) at the pose recovered by backing the transient off-grid pose up one
step along its bearing; that pose is the robot's last in-bounds pose — the
one reached after the longest prefix of the script that keeps it on the
grid — and it lies inside the grid. -/
theorem C3_lost_report (g : Grid) (pl il : String) (r : Robot) (insts : List Instruction)
    (hr : Robot.tryFrom pl = .ok r)
    (hi : parse_instructions il.toList = .ok insts)
    (hin : is_out_of_bounds g r = false)
    (hlost : is_out_of_bounds g (get_end_position g r insts) = true) :
    is_out_of_bounds g ((get_end_position g r insts).move_unchecked (-1)) = false ∧
    process_pair g pl il =
      (apply_scent g ((get_end_position g r insts).move_unchecked (-1)),
        .ok (format_robot ((get_end_position g r insts).move_unchecked (-1)) ++ " LOST")) ∧
    ∃ k, k < insts.length ∧
      is_out_of_bounds g (get_end_position g r (insts.take k)) = false ∧
      get_end_position g r (insts.take (k + 1)) = get_end_position g r insts ∧
      (get_end_position g r insts).move_unchecked (-1) = get_end_position g r (insts.take k) := by
  obtain ⟨k, hk, h1, h2, h3⟩ := lost_split g insts r hin hlost
  have hback : (get_end_position g r insts).move_unchecked (-1) =
      get_end_position g r (insts.take k) := by
    rw [h3]
    exact move_unchecked_cancel _
  refine ⟨?_, ?_, k, hk, h1, h2, hback⟩
  · rw [hback]
    exact h1
  · have hi' : parse_instructions il.data = .ok insts := hi
    simp [process_pair, hr, hi', hlost]

/-- C3 witness: on the 1×1 grid the robot "0 0 N" running "F" is lost; the
reported pose is in bounds and the driver's output is the backed-up pose. -/
theorem C3_lost_report_witness :
    is_out_of_bounds ⟨0, 0, []⟩
      ((get_end_position ⟨0, 0, []⟩ ⟨0, 0, .N⟩ [.F]).move_unchecked (-1)) = false ∧
    process_pair ⟨0, 0, []⟩ "0 0 N" "F" =
      (apply_scent ⟨0, 0, []⟩
        ((get_end_position ⟨0, 0, []⟩ ⟨0, 0, .N⟩ [.F]).move_unchecked (-1)),
        .ok (format_robot
          ((get_end_position ⟨0, 0, []⟩ ⟨0, 0, .N⟩ [.F]).move_unchecked (-1)) ++ " LOST")) :=
  ⟨(C3_lost_report ⟨0, 0, []⟩ "0 0 N" "F" ⟨0, 0, .N⟩ [.F]
      (by rfl) (by rfl) (by decide) (by decide)).1,
   (C3_lost_report ⟨0, 0, []⟩ "0 0 N" "F" ⟨0, 0, .N⟩ [.F]
      (by rfl) (by rfl) (by decide) (by decide)).2.1⟩

/-- Chunking two-at-a-time halves the length, rounding down. -/
theorem tuples_length {α : Type} : ∀ l : List α, (tuples l).length = l.length / 2
  | [] => by simp [tuples]
  | [a] => by simp [tuples]
  | a :: b :: rest => by
    show (tuples rest).length + 1 = (rest.length + 1 + 1) / 2
    rw [tuples_length rest]
    omega

/-- The driver emits exactly one result per pair. -/
theorem run_pairs_length :
    ∀ (g : Grid) (ps : List (String × String)), (run_pairs g ps).length = ps.length
  | _, [] => rfl
  | g, (p, i) :: rest => by
    show (run_pairs (process_pair g p i).1 rest).length + 1 = rest.length + 1
    rw [run_pairs_length _ rest]

/-- With an odd number of elements, the trailing unpaired element never
reaches a chunk. -/
theorem tuples_dropLast :
    ∀ l : List String, l.length % 2 = 1 → tuples l = tuples l.dropLast
  | [], h => by simp at h
  | [_], _ => rfl
  | [_, _], h => by simp at h
  | a :: b :: c :: cs, h => by
    have h' : (c :: cs).length % 2 = 1 := by
      simp only [List.length_cons] at h ⊢
      omega
    show (a, b) :: tuples (c :: cs) = tuples (a :: b :: (c :: cs).dropLast)
    rw [show tuples (a :: b :: (c :: cs).dropLast) =
      (a, b) :: tuples ((c :: cs).dropLast) from rfl]
    rw [tuples_dropLast (c :: cs) h']

/-- C8: with an odd number of non-blank lines after the grid line, the
trailing unpaired line is never consumed — the driver's output is the same
as without it, it succeeds, and it emits exactly one result per complete
pair, in input order. -/
theorem C8_odd_trailing_line (gl : String) (rest : List String) (g : Grid)
    (hnb : ∀ l ∈ gl :: rest, l.isEmpty = false)
    (hg : Grid.tryFrom gl = .ok g)
    (hodd : rest.length % 2 = 1) :
    drive_robots (gl :: rest) = drive_robots (gl :: rest.dropLast) ∧
    drive_robots (gl :: rest) = .ok (run_pairs g (tuples rest)) ∧
    (run_pairs g (tuples rest)).length = rest.length / 2 := by
  have hfil : (gl :: rest).filter is_interesting = gl :: rest := by
    apply List.filter_eq_self.mpr
    intro a ha
    simp [is_interesting, hnb a ha]
  have hfil2 : (gl :: rest.dropLast).filter is_interesting = gl :: rest.dropLast := by
    apply List.filter_eq_self.mpr
    intro a ha
    have hmem : a ∈ gl :: rest := by
      rcases List.mem_cons.mp ha with heq | h2
      · exact heq ▸ List.mem_cons_self _ _
      · exact List.mem_cons_of_mem _ ((List.dropLast_sublist rest).subset h2)
    simp [is_interesting, hnb a hmem]
  have hmain : drive_robots (gl :: rest) = .ok (run_pairs g (tuples rest)) := by
    rw [drive_robots, hfil]
    show Grid.tryFrom gl >>= (fun grid => Except.ok (run_pairs grid (tuples rest))) =
      Except.ok (run_pairs g (tuples rest))
    rw [hg]
    rfl
  have hdrop : drive_robots (gl :: rest.dropLast) =
      .ok (run_pairs g (tuples rest.dropLast)) := by
    rw [drive_robots, hfil2]
    show Grid.tryFrom gl >>= (fun grid => Except.ok (run_pairs grid (tuples rest.dropLast))) =
      Except.ok (run_pairs g (tuples rest.dropLast))
    rw [hg]
    rfl
  refine ⟨?_, hmain, ?_⟩
  · rw [hmain, hdrop, tuples_dropLast rest hodd]
  · rw [run_pairs_length, tuples_length]

/-- C8 witness: a scenario with one complete pair and one trailing line
equals the scenario without the trailing line and emits one result. -/
theorem C8_odd_trailing_line_witness :
    drive_robots ["5 3", "1 1 E", "RFRFRFRF", "9 9"] =
      drive_robots ["5 3", "1 1 E", "RFRFRFRF"] ∧
    (run_pairs ⟨5, 3, []⟩ (tuples ["1 1 E", "RFRFRFRF", "9 9"])).length = 1 := by
  have h := C8_odd_trailing_line "5 3" ["1 1 E", "RFRFRFRF", "9 9"] ⟨5, 3, []⟩
    (by decide) (by rfl) (by decide)
  exact ⟨h.1, h.2.2⟩

end MartianRobots
